import Mathlib

/-!
Verification development for the `TripLengthDistributionBuilder` of the
NorMITs-Demand repository (`normits_demand/tools/trip_length_distributions/builder.py`).

The builder operates on pandas DataFrames of classified survey trip records.
We embed a DataFrame row as a `Row`: a finite association list of named cells
plus the two numeric columns the banding algorithm reads arithmetically
(the trip distance and the trip count, embedded as rationals).  Cell values
(`CVal`) carry an explicit NaN, whose equality follows IEEE semantics
(NaN compares unequal to everything, including itself), matching pandas.

Collaborators of the builder that are not part of the repository sources under
verification (`CostUnits`, `UserClass`, `pd_utils.filter_df`,
`SegmentationLevel.generate_file_name`, the `TripFilter` / `GeoArea`
enumerations and `CostDistribution.to_df`) are modelled from the spec and
marked as such in their doc comments.
-/

namespace NormitsTLD

/-- A cell value of the survey table: a string, a rational number, or NaN. -/
inductive CVal where
  | vstr (s : String)
  | vnum (q : ℚ)
  | vnan
deriving DecidableEq

/-- Equality of cell values with IEEE NaN semantics: NaN equals nothing,
matching the behaviour of `==` / `.isin` on pandas float columns. -/
def cvalEq : CVal → CVal → Bool
  | .vstr a, .vstr b => a == b
  | .vnum a, .vnum b => a == b
  | _, _ => false

/-- Whether a cell value is the NaN sentinel (embeds `np.isnan`). -/
def isNanVal : CVal → Bool
  | .vnan => true
  | _ => false

/-- A row of the survey table: named cells, plus the trip-distance and
trip-count columns which the banding algorithm reads as numbers. -/
structure Row where
  cols : List (String × CVal)
  dist : ℚ
  count : ℚ
deriving DecidableEq

/-- Column access (`row[col]`); a column not present reads as NaN. -/
def Row.get (r : Row) (c : String) : CVal :=
  ((r.cols.find? (fun p => p.1 == c)).map Prod.snd).getD CVal.vnan

/-- Association-list update used to embed cell assignment `df.loc[mask, col] = v`. -/
def assocSet (l : List (String × CVal)) (c : String) (v : CVal) : List (String × CVal) :=
  if l.any (fun p => p.1 == c) then l.map (fun p => if p.1 == c then (c, v) else p)
  else l ++ [(c, v)]

/-- Cell assignment on a row. -/
def Row.set (r : Row) (c : String) (v : CVal) : Row :=
  { r with cols := assocSet r.cols c v }

/-- Modelled from the spec: the `CostUnits` enumeration collaborator
(`normits_demand.core.CostUnits`, not under the sources being verified);
the spec describes a stateless conversion-factor lookup between
miles and kilometres. -/
inductive CostUnits where
  | miles
  | km
deriving DecidableEq

/-- Modelled from the spec: `CostUnits.get_conversion_factor`, the stateless
miles ↔ kilometres conversion-factor lookup. -/
def CostUnits.get_conversion_factor : CostUnits → CostUnits → ℚ
  | .miles, .miles => 1
  | .km, .km => 1
  | .miles, .km => 1609344 / 1000000
  | .km, .miles => 1000000 / 1609344

/-- `func_utils.pairwise`: the consecutive pairs of a list of band edges.
`[1, 2, 3]` gives the two bands `(1, 2)` and `(2, 3)`. -/
def pairwise : List ℚ → List (ℚ × ℚ)
  | a :: b :: rest => (a, b) :: pairwise (b :: rest)
  | _ => []

/-- The band-selection mask of `_build_cost_distribution`:
`(data[dist] > lower) & (data[dist] < upper)` — both bounds strictly exclusive. -/
def inBand (lower upper d : ℚ) : Bool :=
  decide (lower < d) && decide (d < upper)

/-- The unit-conversion step of `_build_cost_distribution`:
`data[trip_dist_col] *= conv_factor` applied to every row. -/
def convData (input_cost_units output_cost_units : CostUnits) (data : List Row) : List Row :=
  data.map (fun r =>
    { r with dist := r.dist * input_cost_units.get_conversion_factor output_cost_units })

/-- The owned output entity built per segment (`cost.CostDistribution`):
band edges, per-band trip totals, per-band mean costs, sample size. -/
structure CostDistribution where
  edges : List ℚ
  band_trips : List ℚ
  cost_units : CostUnits
  band_mean_cost : List ℚ
  sample_size : ℕ
deriving DecidableEq

/-- Embeds `TripLengthDistributionBuilder._build_cost_distribution`:
records the unweighted row count as the sample size, converts distances to the
output units, and for each consecutive edge pair selects the rows strictly
inside the band, sums their trip counts (`band_trips`) and their
count-weighted distances; a band whose weighted distance is `<= 0` takes the
band midpoint as its mean cost, otherwise the demand-weighted mean
`band_distance / band_trips`. -/
def build_cost_distribution (input_cost_units : CostUnits) (data : List Row)
    (band_edges : List ℚ) (output_cost_units : CostUnits) : CostDistribution :=
  let sample_size := data.length
  let data := convData input_cost_units output_cost_units data
  let band_vals := (pairwise band_edges).map (fun lu =>
    let band_data := data.filter (fun r => inBand lu.1 lu.2 r.dist)
    let band_trips := (band_data.map Row.count).sum
    let band_distance := (band_data.map (fun r => r.count * r.dist)).sum
    let band_mean_cost :=
      if band_distance ≤ 0 then (lu.1 + lu.2) / 2 else band_distance / band_trips
    (band_trips, band_mean_cost))
  { edges := band_edges
    band_trips := band_vals.map Prod.fst
    cost_units := output_cost_units
    band_mean_cost := band_vals.map Prod.snd
    sample_size := sample_size }

/-- The `to_dict` of `_filter_nts_data`: the `trip_origin` expansion
`hb -> [hb_to, hb_from]`, `nhb -> [nhb]`.  (On any other key the Python dict
lookup raises `KeyError`; no claim exercises such a key.) -/
def to_dict_lookup : CVal → List CVal
  | .vstr "hb" => [.vstr "hb_to", .vstr "hb_from"]
  | .vstr "nhb" => [.vstr "nhb"]
  | _ => []

/-- Modelled from the spec: the `UserClass` enumeration collaborator
(`normits_demand.core.UserClass`, not under the sources being verified)
resolving a user class to its underlying set of purpose codes. -/
def user_class_purposes : CVal → List CVal
  | .vstr "commute" => [.vnum 1]
  | .vstr "business" => [.vnum 2, .vnum 12]
  | .vstr "other" =>
      [.vnum 3, .vnum 4, .vnum 5, .vnum 6, .vnum 7, .vnum 8,
       .vnum 13, .vnum 14, .vnum 15, .vnum 16, .vnum 18]
  | _ => []

/-- Python-dict insertion with overwrite: assigning `df_filter[k] = v`
replaces the value when the key exists and appends it otherwise. -/
def dictInsert (d : List (String × List CVal)) (k : String) (v : List CVal) :
    List (String × List CVal) :=
  if d.any (fun p => p.1 == k) then d.map (fun p => if p.1 == k then (k, v) else p)
  else d ++ [(k, v)]

/-- One iteration of the `df_filter`-building loop of `_filter_nts_data`:
`trip_origin` expands through `to_dict`, `uc` resolves to purpose codes keyed
on the purpose column, `soc` / `ns` are skipped entirely when NaN (invalid
segment) and exact-matched otherwise, and any other dimension exact-matches. -/
def build_df_filter_step (purpose_col : String) (df_filter : List (String × List CVal))
    (p : String × CVal) : List (String × List CVal) :=
  if p.1 == "trip_origin" then dictInsert df_filter p.1 (to_dict_lookup p.2)
  else if p.1 == "uc" then dictInsert df_filter purpose_col (user_class_purposes p.2)
  else if p.1 == "soc" || p.1 == "ns" then
    (if isNanVal p.2 then df_filter else dictInsert df_filter p.1 [p.2])
  else dictInsert df_filter p.1 [p.2]

/-- The `df_filter` dict built by `_filter_nts_data` from the segment
parameters, in iteration order. -/
def build_df_filter (purpose_col : String) (segment_params : List (String × CVal)) :
    List (String × List CVal) :=
  segment_params.foldl (build_df_filter_step purpose_col) []

/-- The filter key a segment parameter contributes to the `df_filter` dict
(`none` for a NaN-valued `soc` / `ns` parameter, which contributes nothing). -/
def filterKey (purpose_col : String) (p : String × CVal) : Option String :=
  if p.1 == "trip_origin" then some p.1
  else if p.1 == "uc" then some purpose_col
  else if p.1 == "soc" || p.1 == "ns" then (if isNanVal p.2 then none else some p.1)
  else some p.1

/-- Modelled from the spec: `pd_utils.filter_df` (not under the sources being
verified) — a conjunctive (AND) membership filter: a row is kept when, for
every `(column, values)` entry of the dict, its cell is in `values`. -/
def matchesFilter (df_filter : List (String × List CVal)) (r : Row) : Bool :=
  df_filter.all (fun p => p.2.any (fun v => cvalEq (r.get p.1) v))

/-- Modelled from the spec: `pd_utils.filter_df` applied to a table. -/
def filter_df (df : List Row) (df_filter : List (String × List CVal)) : List Row :=
  df.filter (matchesFilter df_filter)

/-- Embeds `TripLengthDistributionBuilder._filter_nts_data`: builds the
`df_filter` dict from the segment parameters (handling the special cases
`trip_origin`, `uc`, `soc`, `ns`) and applies it conjunctively. -/
def filter_nts_data (purpose_col : String) (nts_data : List Row)
    (segment_params : List (String × CVal)) : List Row :=
  filter_df nts_data (build_df_filter purpose_col segment_params)

/-- The trip-filter mode enumeration (`tld_enums.TripFilter`).  The three
origin/destination modes appear in the source dispatch; the enumeration module
itself is not under the sources being verified, so the non-OD `household`
member is modelled from the spec (the source carries a TODO for a household
trip-filter type, and its geo filter has an explicit rejection branch for
non-OD modes). -/
inductive TripFilter where
  | trip_od
  | trip_o
  | trip_d
  | household
deriving DecidableEq

/-- The `.value` string of a trip-filter mode, used in error messages. -/
def TripFilter.value : TripFilter → String
  | .trip_od => "trip_OD"
  | .trip_o => "trip_O"
  | .trip_d => "trip_D"
  | .household => "household"

/-- Modelled from the spec: `TripFilter.is_od_type` — true exactly for the
three origin/destination filter modes. -/
def TripFilter.is_od_type : TripFilter → Bool
  | .trip_od => true
  | .trip_o => true
  | .trip_d => true
  | .household => false

/-- Modelled from the spec: the `GeoArea` enumeration collaborator — a
geographic area resolves to a set of GOR area codes. -/
structure GeoArea where
  gors : List CVal
deriving DecidableEq

/-- Modelled from the spec: `GeoArea.get_gors`. -/
def GeoArea.get_gors (g : GeoArea) : List CVal := g.gors

/-- The origin GOR column name used by `_apply_od_geo_filter`. -/
def orig_gor_col : String := "TripOrigGOR_B02ID"

/-- The destination GOR column name used by `_apply_od_geo_filter`. -/
def dest_gor_col : String := "TripDestGOR_B02ID"

/-- The direction-normalisation step of `_apply_od_geo_filter`: rows whose
trip direction is `hb_to` have their origin and destination GOR codes
transposed in place (reinterpreting a return leg in production/attraction
terms). -/
def transpose_hb_to (trip_origin_col : String) (data : List Row) : List Row :=
  data.map (fun r =>
    if cvalEq (r.get trip_origin_col) (.vstr "hb_to") then
      (r.set orig_gor_col (r.get dest_gor_col)).set dest_gor_col (r.get orig_gor_col)
    else r)

/-- The `isin(geo_area.get_gors())` membership mask. -/
def inGors (geo_area : GeoArea) (v : CVal) : Bool :=
  geo_area.get_gors.any (fun g => cvalEq v g)

/-- Embeds `TripLengthDistributionBuilder._apply_od_geo_filter`: transposes
`hb_to` rows, decides which of origin/destination to constrain from the
trip-filter mode (rejecting unknown modes with an error naming the mode), and
applies the membership filters sequentially. -/
def apply_od_geo_filter (trip_origin_col : String) (nts_data : List Row)
    (geo_area : GeoArea) (trip_filter_type : TripFilter) : Except String (List Row) :=
  let output_data := transpose_hb_to trip_origin_col nts_data
  let flags : Option (Bool × Bool) :=
    match trip_filter_type with
    | .trip_od => some (true, true)
    | .trip_o => some (true, false)
    | .trip_d => some (false, true)
    | _ => none
  match flags with
  | none =>
      .error ("Dont know how to apply the OD filter " ++ trip_filter_type.value)
  | some fs =>
      let output_data :=
        if fs.1 then output_data.filter (fun r => inGors geo_area (r.get orig_gor_col))
        else output_data
      let output_data :=
        if fs.2 then output_data.filter (fun r => inGors geo_area (r.get dest_gor_col))
        else output_data
      .ok output_data

/-- Embeds `TripLengthDistributionBuilder._apply_geo_filter`: dispatches
OD-type modes to `apply_od_geo_filter` and rejects every other mode with an
invalid-configuration error naming the mode. -/
def apply_geo_filter (trip_origin_col : String) (nts_data : List Row)
    (geo_area : GeoArea) (trip_filter_type : TripFilter) : Except String (List Row) :=
  if trip_filter_type.is_od_type then
    apply_od_geo_filter trip_origin_col nts_data geo_area trip_filter_type
  else
    .error ("Dont know how to apply to filter " ++ trip_filter_type.value)

/-- One row of the sample-adequacy log of `build_tld`: the segment
parameters, the raw (unweighted) record count, and a pass/fail status. -/
structure LogLine where
  params : List (String × CVal)
  records : ℕ
  status : String
deriving DecidableEq

/-- One row of the consolidated export: a band row tagged with its segment
parameters. -/
structure ExportRow where
  lower : ℚ
  upper : ℚ
  trips : ℚ
  mean_cost : ℚ
  params : List (String × CVal)
deriving DecidableEq

/-- Modelled from the spec: `CostDistribution.to_df` (serialization to a
tabular form, not under the sources being verified) — one row per band with
the segment parameters attached as extra columns. -/
def CostDistribution.to_df (cd : CostDistribution) (additional_cols : List (String × CVal)) :
    List ExportRow :=
  (((pairwise cd.edges).zip cd.band_trips).zip cd.band_mean_cost).map (fun x =>
    { lower := x.1.1.1, upper := x.1.1.2, trips := x.1.2, mean_cost := x.2,
      params := additional_cols })

/-- Modelled from the spec: `SegmentationLevel.generate_file_name` via
`_generate_tld_name` — the canonical file-name rule for a segment-parameter
combination (spelled from the parameter names and values plus the
`cost_distribution` file description). -/
def generate_file_name (segment_params : List (String × CVal)) : String :=
  (segment_params.foldl (fun acc p =>
    acc ++ "_" ++ p.1 ++
      (match p.2 with
       | .vstr s => s
       | .vnum q => toString q
       | .vnan => "nan")) "") ++ "_cost_distribution"

/-- The warning diagnostic `build_tld` emits for an under-sampled segment. -/
def warn_msg (segment_params : List (String × CVal)) (sample_threshold sample_size : ℕ) :
    String :=
  "Not enough data was returned to create a TLD for segment " ++
    generate_file_name segment_params ++ ". Lower limit set to " ++
    toString sample_threshold ++ ", but only " ++ toString sample_size ++
    " were found. No TLD will be generated."

/-- The loop state of `build_tld`: the name → distribution dictionary, the
sample-size log lines, the per-segment export tables awaiting concatenation,
and the warning diagnostics emitted so far (the explicit embedding of the
`LOG.warning` side effect). -/
structure TldState where
  name_to_distribution : List (String × CostDistribution)
  sample_size_log : List LogLine
  full_export : List (List ExportRow)
  warnings : List String
deriving DecidableEq

/-- The initial loop state of `build_tld`: empty dictionary, log, export
list and warning list. -/
def init_tld_state : TldState :=
  { name_to_distribution := [], sample_size_log := [], full_export := [], warnings := [] }

/-- A one-row survey-table fixture used by the concrete witnesses. -/
def example_row : Row := { cols := [("m", CVal.vnum 1)], dist := 3, count := 5 }

/-- Python-dict update for the name → distribution dictionary. -/
def dictUpdate (d : List (String × CostDistribution)) (k : String) (v : CostDistribution) :
    List (String × CostDistribution) :=
  if d.any (fun p => p.1 == k) then d.map (fun p => if p.1 == k then (k, v) else p)
  else d ++ [(k, v)]

/-- Dictionary lookup for the name → distribution dictionary. -/
def dictLookup (d : List (String × CostDistribution)) (k : String) :
    Option CostDistribution :=
  (d.find? (fun p => p.1 == k)).map Prod.snd

/-- One iteration of the segment loop of `build_tld`: filter the data to the
segment, count the raw rows, and either record the under-sampling warning and
move on (`continue` — note the source builds a `Failed` log line here but
`continue`s before appending it, so it never reaches `sample_size_log`), or
append the `Passed` log line, derive the band edges as
`[min_bounds[0]] + max_bounds.tolist()` (the FIRST value of the `lower`
column — `List.headI` here; the source raises `IndexError` on an empty bands
table, which no claim exercises), build the cost distribution, append its
tabular form to the export, and register it under its canonical name. -/
def build_tld_step (input_cost_units : CostUnits) (purpose_col : String)
    (tld_data : List Row) (bands : List (ℚ × ℚ)) (cost_units : CostUnits)
    (sample_threshold : ℕ) (st : TldState) (segment_params : List (String × CVal)) :
    TldState :=
  let data_subset := filter_nts_data purpose_col tld_data segment_params
  let sample_size := data_subset.length
  if sample_size < sample_threshold then
    { st with warnings := st.warnings ++ [warn_msg segment_params sample_threshold sample_size] }
  else
    let st := { st with
      sample_size_log := st.sample_size_log ++
        [({ params := segment_params, records := sample_size,
            status := "Passed" } : LogLine)] }
    let min_bounds := bands.map Prod.fst
    let max_bounds := bands.map Prod.snd
    let tld := build_cost_distribution input_cost_units data_subset
      (min_bounds.headI :: max_bounds) cost_units
    let st := { st with full_export := st.full_export ++ [tld.to_df segment_params] }
    { st with
      name_to_distribution :=
        dictUpdate st.name_to_distribution (generate_file_name segment_params) tld }

/-- The final loop state of `build_tld` over a whole segmentation
enumeration. -/
def build_tld_state (input_cost_units : CostUnits) (purpose_col : String)
    (tld_data : List Row) (bands : List (ℚ × ℚ))
    (segmentation : List (List (String × CVal))) (cost_units : CostUnits)
    (sample_threshold : ℕ) : TldState :=
  segmentation.foldl
    (build_tld_step input_cost_units purpose_col tld_data bands cost_units sample_threshold)
    init_tld_state

/-- `pd.concat(tables, ignore_index=True)`: raises
`No objects to concatenate` on an empty list of tables and flattens
otherwise. -/
def concat_tables (tables : List (List ExportRow)) : Except String (List ExportRow) :=
  match tables with
  | [] => .error "No objects to concatenate"
  | ts => .ok ts.flatten

/-- The value returned by a successful `build_tld` run: the name →
distribution dictionary, the sample-size log, the concatenated full export,
and the warning diagnostics emitted along the way. -/
structure BuildTldResult where
  name_to_distribution : List (String × CostDistribution)
  sample_size_log : List LogLine
  full_export : List ExportRow
  warnings : List String
deriving DecidableEq

/-- Embeds `TripLengthDistributionBuilder.build_tld`: runs the segment loop
and then consolidates the reports, where `pd.concat` on the accumulated
export list raises when that list is empty (no segment passed the sample
threshold). -/
def build_tld (input_cost_units : CostUnits) (purpose_col : String)
    (tld_data : List Row) (bands : List (ℚ × ℚ))
    (segmentation : List (List (String × CVal))) (cost_units : CostUnits)
    (sample_threshold : ℕ) : Except String BuildTldResult :=
  let st := build_tld_state input_cost_units purpose_col tld_data bands segmentation
    cost_units sample_threshold
  match concat_tables st.full_export with
  | .error e => .error e
  | .ok full_export =>
      .ok { name_to_distribution := st.name_to_distribution
            sample_size_log := st.sample_size_log
            full_export := full_export
            warnings := st.warnings }

/-- The band-edge derivation as the spec words it (claim C2): the MINIMUM of
the `lower` column prepended to the `upper` column — to be compared with the
source derivation, which prepends the FIRST value of the `lower` column. -/
def spec_band_edges (bands : List (ℚ × ℚ)) : List ℚ :=
  (((bands.map Prod.fst).min?).getD 0) :: bands.map Prod.snd

/-- The number of bands of `edges` whose open interval contains `d` — the
count of consecutive edge pairs whose selection mask of
`_build_cost_distribution` admits a record at distance `d`. -/
def bandCount (edges : List ℚ) (d : ℚ) : ℕ :=
  (pairwise edges).countP (fun lu => inBand lu.1 lu.2 d)

/-! ### Helper lemmas about sorted edge lists and band membership -/

theorem sorted_mem_head_le {b d : ℚ} {rest : List ℚ}
    (h : List.Sorted (· < ·) (b :: rest)) (hmem : d ∈ b :: rest) : b ≤ d := by
  rcases List.mem_cons.mp hmem with rfl | hmem'
  · exact le_refl d
  · exact le_of_lt ((List.sorted_cons.mp h).1 d hmem')

theorem pairwise_first_ge_head :
    ∀ (l : List ℚ), List.Sorted (· < ·) l → ∀ p ∈ pairwise l, l.headI ≤ p.1
  | [], _, p, hp => by simp [pairwise] at hp
  | [_], _, p, hp => by simp [pairwise] at hp
  | a :: b :: rest, h, p, hp => by
      rw [pairwise] at hp
      rcases List.mem_cons.mp hp with rfl | hp'
      · simp
      · have htail : List.Sorted (· < ·) (b :: rest) := (List.sorted_cons.mp h).2
        have hb := pairwise_first_ge_head (b :: rest) htail p hp'
        have hab : a < b := (List.sorted_cons.mp h).1 b (by simp)
        simp only [List.headI] at hb ⊢
        exact le_trans (le_of_lt hab) hb

theorem bandCount_tail_zero {b d : ℚ} {rest : List ℚ}
    (h : List.Sorted (· < ·) (b :: rest)) (hd : d ≤ b) : bandCount (b :: rest) d = 0 := by
  refine List.countP_eq_zero.mpr (fun p hp => ?_)
  have hble := pairwise_first_ge_head (b :: rest) h p hp
  simp only [List.headI] at hble
  simp only [inBand, Bool.and_eq_true, decide_eq_true_eq, not_and]
  intro hlt
  exact absurd (lt_of_le_of_lt hble hlt) (not_lt.mpr hd)

theorem bandCount_le_one :
    ∀ (l : List ℚ), List.Sorted (· < ·) l → ∀ (d : ℚ), bandCount l d ≤ 1
  | [], _, d => by simp [bandCount, pairwise]
  | [_], _, d => by simp [bandCount, pairwise]
  | a :: b :: rest, h, d => by
      have htail : List.Sorted (· < ·) (b :: rest) := (List.sorted_cons.mp h).2
      unfold bandCount
      rw [pairwise, List.countP_cons]
      by_cases hin : inBand a b d = true
      · have hdb : d < b := by
          simp only [inBand, Bool.and_eq_true, decide_eq_true_eq] at hin
          exact hin.2
        have h0 : bandCount (b :: rest) d = 0 :=
          bandCount_tail_zero htail (le_of_lt hdb)
        unfold bandCount at h0
        simp [hin, h0]
      · have hle := bandCount_le_one (b :: rest) htail d
        unfold bandCount at hle
        simp only [hin, if_false]
        simpa using hle

theorem bandCount_eq_zero_of_mem :
    ∀ (l : List ℚ), List.Sorted (· < ·) l → ∀ (d : ℚ), d ∈ l → bandCount l d = 0
  | [], _, d, hmem => by simp at hmem
  | [_], _, d, _ => by simp [bandCount, pairwise]
  | a :: b :: rest, h, d, hmem => by
      have htail : List.Sorted (· < ·) (b :: rest) := (List.sorted_cons.mp h).2
      unfold bandCount
      rw [pairwise, List.countP_cons]
      rcases List.mem_cons.mp hmem with rfl | hmem'
      · have h0 : bandCount (b :: rest) d = 0 := by
          refine bandCount_tail_zero htail (le_of_lt ?_)
          exact (List.sorted_cons.mp h).1 b (by simp)
        have hin : inBand d b d = false := by
          simp [inBand]
        unfold bandCount at h0
        simp [hin, h0]
      · have hbd : b ≤ d := sorted_mem_head_le htail hmem'
        have h0 := bandCount_eq_zero_of_mem (b :: rest) htail d hmem'
        have hin : inBand a b d = false := by
          simp only [inBand, Bool.and_eq_false_iff, decide_eq_false_iff_not]
          right
          exact not_lt.mpr hbd
        unfold bandCount at h0
        simp [hin, h0]

theorem getLastD_irrel {b : ℚ} {rest : List ℚ} (x y : ℚ) :
    (b :: rest).getLastD x = (b :: rest).getLastD y := by
  rw [List.getLastD_cons, List.getLastD_cons]

theorem bandCount_eq_one :
    ∀ (l : List ℚ), List.Sorted (· < ·) l → ∀ (d : ℚ), l ≠ [] →
      l.headI ≤ d → d ≤ l.getLastD 0 → d ∉ l → bandCount l d = 1
  | [], _, _, hne, _, _, _ => absurd rfl hne
  | [a], _, d, _, hlo, hhi, hmem => by
      simp only [List.headI] at hlo
      simp only [List.getLastD_cons, List.getLastD] at hhi
      exact absurd (by simp [le_antisymm hhi hlo]) hmem
  | a :: b :: rest, h, d, _, hlo, hhi, hmem => by
      have htail : List.Sorted (· < ·) (b :: rest) := (List.sorted_cons.mp h).2
      unfold bandCount
      rw [pairwise, List.countP_cons]
      by_cases hdb : d < b
      · have had : a < d := by
          rcases lt_or_eq_of_le (by simpa using hlo) with hlt | heq
          · exact hlt
          · exact absurd (by simp [← heq]) hmem
        have hin : inBand a b d = true := by
          simp [inBand, had, hdb]
        have h0 : bandCount (b :: rest) d = 0 :=
          bandCount_tail_zero htail (le_of_lt hdb)
        unfold bandCount at h0
        simp [hin, h0]
      · have hbd : b ≤ d := not_lt.mp hdb
        have hin : inBand a b d = false := by
          simp only [inBand, Bool.and_eq_false_iff, decide_eq_false_iff_not]
          right
          exact not_lt.mpr hbd
        have hhi' : d ≤ (b :: rest).getLastD 0 := by
          rw [getLastD_irrel 0 a, ← List.getLastD_cons]
          exact hhi
        have hmem' : d ∉ b :: rest := fun hc => hmem (List.mem_cons_of_mem a hc)
        have h1 := bandCount_eq_one (b :: rest) htail d (by simp) hbd hhi' hmem'
        unfold bandCount at h1
        simp [hin, h1]

/-- Claim C3: with strictly increasing band edges, each distance value lies
strictly inside at most one consecutive edge pair of the band-selection mask
used by `_build_cost_distribution`, and a distance exactly equal to any edge
value is selected into zero bands. -/
theorem claim3_at_most_one_band (edges : List ℚ) (d : ℚ)
    (hsorted : List.Sorted (· < ·) edges) :
    bandCount edges d ≤ 1 ∧ (d ∈ edges → bandCount edges d = 0) :=
  ⟨bandCount_le_one edges hsorted d,
   fun hmem => bandCount_eq_zero_of_mem edges hsorted d hmem⟩

/-- Witness for claim C3 at the concrete edges `[0, 2, 5]` and the
edge-valued distance `2`. -/
theorem claim3_at_most_one_band_witness :
    List.Sorted (fun a b => a < b) ([0, 2, 5] : List ℚ) ∧
      (bandCount [0, 2, 5] 2 ≤ 1 ∧ ((2 : ℚ) ∈ [(0 : ℚ), 2, 5] → bandCount [0, 2, 5] 2 = 0)) :=
  ⟨by decide, claim3_at_most_one_band [0, 2, 5] 2 (by decide)⟩

/-! ### Helper lemmas for the band-trip total (claim C4) -/

theorem sum_filter_eq_sum_ite (l : List Row) (q : Row → Bool) (f : Row → ℚ) :
    ((l.filter q).map f).sum = (l.map (fun x => if q x then f x else 0)).sum := by
  induction l with
  | nil => simp
  | cons a t ih => by_cases h : q a <;> simp [List.filter_cons, h, ih]

theorem sum_bands_swap (ps : List (ℚ × ℚ)) (l : List Row) :
    (ps.map (fun lu =>
        ((l.filter (fun r => inBand lu.1 lu.2 r.dist)).map Row.count).sum)).sum
      = (l.map (fun r =>
          r.count * (ps.countP (fun lu => inBand lu.1 lu.2 r.dist) : ℚ))).sum := by
  induction ps with
  | nil => simp
  | cons p ps ih =>
      simp only [List.map_cons, List.sum_cons, List.countP_cons]
      rw [ih, sum_filter_eq_sum_ite, ← List.sum_map_add]
      refine congrArg List.sum (List.map_congr_left (fun r _ => ?_))
      push_cast
      by_cases h : inBand p.1 p.2 r.dist
      · simp only [h, if_true]
        ring
      · simp only [h]
        norm_num

theorem band_trips_eq (iU oU : CostUnits) (data : List Row) (edges : List ℚ) :
    (build_cost_distribution iU data edges oU).band_trips
      = (pairwise edges).map (fun lu =>
          (((convData iU oU data).filter
              (fun r => inBand lu.1 lu.2 r.dist)).map Row.count).sum) := by
  simp only [build_cost_distribution, List.map_map]
  rfl

theorem band_trips_sum_eq_weighted_multiplicity (iU oU : CostUnits)
    (data : List Row) (edges : List ℚ) :
    (build_cost_distribution iU data edges oU).band_trips.sum
      = (data.map (fun r => r.count *
          (bandCount edges (r.dist * iU.get_conversion_factor oU) : ℚ))).sum := by
  rw [band_trips_eq, sum_bands_swap]
  simp only [convData, List.map_map]
  rfl

/-- Claim C4 counterexample: the claim omits any sign condition on the
trip-count column, but for a record with a negative count lying outside every
band the band-trip total `0` exceeds the whole-input total `-1`; the band set
`[0, 1]` is strictly increasing as the claim requires. -/
theorem claim4_counterexample :
    List.Sorted (fun a b => a < b) ([0, 1] : List ℚ) ∧
      ¬ ((build_cost_distribution .miles
            [{ cols := [], dist := 100, count := -1 }] [0, 1] .miles).band_trips.sum
          ≤ ([({ cols := [], dist := 100, count := -1 } : Row)].map Row.count).sum) := by
  constructor
  · decide
  · have h1 : (build_cost_distribution .miles
        [{ cols := [], dist := 100, count := -1 }] [0, 1] .miles).band_trips = [0] := by
      with_unfolding_all rfl
    have h2 : ([({ cols := [], dist := 100, count := -1 } : Row)].map Row.count).sum
        = -1 := by
      with_unfolding_all rfl
    rw [h1, h2]
    norm_num

/-- Claim C4 (amended with nonnegative trip counts): for every record set with
nonnegative trip counts and strictly increasing band edges, the sum of the
band trips returned by `_build_cost_distribution` is at most the total of the
trip-count column over the whole input, with equality when no record
(unit-converted) distance lies exactly on an edge or outside the closed
interval from the smallest to the largest edge. -/
theorem claim4_band_trips_total (iU oU : CostUnits) (data : List Row) (edges : List ℚ)
    (hsorted : List.Sorted (· < ·) edges)
    (hcount : ∀ r ∈ data, 0 ≤ r.count) :
    (build_cost_distribution iU data edges oU).band_trips.sum
        ≤ (data.map Row.count).sum ∧
      ((edges ≠ [] ∧ ∀ r ∈ data,
          r.dist * iU.get_conversion_factor oU ∉ edges ∧
          edges.headI ≤ r.dist * iU.get_conversion_factor oU ∧
          r.dist * iU.get_conversion_factor oU ≤ edges.getLastD 0) →
        (build_cost_distribution iU data edges oU).band_trips.sum
          = (data.map Row.count).sum) := by
  constructor
  · rw [band_trips_sum_eq_weighted_multiplicity]
    refine List.sum_le_sum (fun r hr => ?_)
    have h1 : ((bandCount edges (r.dist * iU.get_conversion_factor oU) : ℕ) : ℚ) ≤ 1 := by
      exact_mod_cast bandCount_le_one edges hsorted (r.dist * iU.get_conversion_factor oU)
    calc r.count * (bandCount edges (r.dist * iU.get_conversion_factor oU) : ℚ)
        ≤ r.count * 1 := mul_le_mul_of_nonneg_left h1 (hcount r hr)
      _ = r.count := mul_one _
  · rintro ⟨hne, hall⟩
    rw [band_trips_sum_eq_weighted_multiplicity]
    refine congrArg List.sum (List.map_congr_left (fun r hr => ?_))
    rcases hall r hr with ⟨hnm, hlo, hhi⟩
    rw [bandCount_eq_one edges hsorted _ hne hlo hhi hnm]
    simp

/-- Witness for claim C4 at the spec scenario: bands `[0,2),[2,5)` and
records `(1,10),(1,10),(3,5)` as (distance, count) — the equality case. -/
theorem claim4_band_trips_total_witness :
    List.Sorted (fun a b => a < b) ([0, 2, 5] : List ℚ) ∧
      (∀ r ∈ [({ cols := [], dist := 1, count := 10 } : Row),
              { cols := [], dist := 1, count := 10 },
              { cols := [], dist := 3, count := 5 }], 0 ≤ r.count) ∧
      ((build_cost_distribution .miles
          [{ cols := [], dist := 1, count := 10 },
           { cols := [], dist := 1, count := 10 },
           { cols := [], dist := 3, count := 5 }] [0, 2, 5] .miles).band_trips.sum
          ≤ ([({ cols := [], dist := 1, count := 10 } : Row),
              { cols := [], dist := 1, count := 10 },
              { cols := [], dist := 3, count := 5 }].map Row.count).sum) := by
  have hs : List.Sorted (fun a b => a < b) ([0, 2, 5] : List ℚ) := by decide
  have hc : ∀ r ∈ [({ cols := [], dist := 1, count := 10 } : Row),
      { cols := [], dist := 1, count := 10 },
      { cols := [], dist := 3, count := 5 }], 0 ≤ r.count := by
    intro r hr
    simp only [List.mem_cons, List.not_mem_nil, or_false] at hr
    rcases hr with rfl | rfl | rfl <;> norm_num
  exact ⟨hs, hc,
    (claim4_band_trips_total .miles .miles
      [{ cols := [], dist := 1, count := 10 },
       { cols := [], dist := 1, count := 10 },
       { cols := [], dist := 3, count := 5 }] [0, 2, 5] hs hc).1⟩

/-! ### Per-band values (claims C5 and C10) -/

/-- Claim C5: for the band at index `i` with edge pair `(l, u)`,
`_build_cost_distribution` returns `band_trips` equal to the sum of counts
over the selected rows, and `band_mean_cost` equal to the midpoint
`(l + u) / 2` when the weighted distance is `<= 0` (in particular for a band
with no qualifying records) and to `weighted_distance / band_trips`
otherwise. -/
theorem claim5_band_mean_cost (iU oU : CostUnits) (data : List Row) (edges : List ℚ)
    (i : ℕ) (l u : ℚ) (hp : (pairwise edges)[i]? = some (l, u)) :
    (build_cost_distribution iU data edges oU).band_trips[i]?
        = some (((convData iU oU data).filter
            (fun r => inBand l u r.dist)).map Row.count).sum ∧
      (build_cost_distribution iU data edges oU).band_mean_cost[i]?
        = some (if (((convData iU oU data).filter
              (fun r => inBand l u r.dist)).map (fun r => r.count * r.dist)).sum ≤ 0
            then (l + u) / 2
            else (((convData iU oU data).filter
                  (fun r => inBand l u r.dist)).map (fun r => r.count * r.dist)).sum
              / (((convData iU oU data).filter
                  (fun r => inBand l u r.dist)).map Row.count).sum) := by
  constructor
  · simp only [build_cost_distribution, List.map_map, List.getElem?_map, hp]
    rfl
  · simp only [build_cost_distribution, List.map_map, List.getElem?_map, hp]
    rfl

/-- Witness for claim C5 at the spec scenario of a band with no qualifying
records: the single band `[0, 1]` and one record at distance 3 yields
`band_trips = 0` and `band_mean_cost = 1/2` (the midpoint). -/
theorem claim5_band_mean_cost_witness :
    (pairwise [0, 1])[0]? = some ((0 : ℚ), (1 : ℚ)) ∧
      ((build_cost_distribution .miles [{ cols := [], dist := 3, count := 5 }]
          [0, 1] .miles).band_trips[0]?
          = some (((convData .miles .miles [{ cols := [], dist := 3, count := 5 }]).filter
              (fun r => inBand 0 1 r.dist)).map Row.count).sum ∧
        (build_cost_distribution .miles [{ cols := [], dist := 3, count := 5 }]
            [0, 1] .miles).band_mean_cost[0]?
          = some (if (((convData .miles .miles
                  [{ cols := [], dist := 3, count := 5 }]).filter
                (fun r => inBand 0 1 r.dist)).map (fun r => r.count * r.dist)).sum ≤ 0
              then ((0 : ℚ) + 1) / 2
              else (((convData .miles .miles
                      [{ cols := [], dist := 3, count := 5 }]).filter
                    (fun r => inBand 0 1 r.dist)).map (fun r => r.count * r.dist)).sum
                / (((convData .miles .miles
                      [{ cols := [], dist := 3, count := 5 }]).filter
                    (fun r => inBand 0 1 r.dist)).map Row.count).sum)) ∧
      (build_cost_distribution .miles [{ cols := [], dist := 3, count := 5 }]
          [0, 1] .miles).band_trips = [0] ∧
      (build_cost_distribution .miles [{ cols := [], dist := 3, count := 5 }]
          [0, 1] .miles).band_mean_cost = [1 / 2] := by
  refine ⟨by decide,
    claim5_band_mean_cost .miles .miles [{ cols := [], dist := 3, count := 5 }]
      [0, 1] 0 0 1 (by decide), ?_, ?_⟩
  · with_unfolding_all rfl
  · with_unfolding_all rfl

theorem conversion_factor_pos (a b : CostUnits) : 0 < a.get_conversion_factor b := by
  cases a <;> cases b <;> norm_num [CostUnits.get_conversion_factor]

theorem sum_count_pos_of_weighted_pos :
    ∀ (l : List Row), (∀ r ∈ l, 0 ≤ r.count ∧ 0 ≤ r.dist) →
      0 < (l.map (fun r => r.count * r.dist)).sum → 0 < (l.map Row.count).sum := by
  intro l
  induction l with
  | nil => intro _ hw; simp at hw
  | cons a t ih =>
      intro h hw
      have ha := h a (by simp)
      have ht : ∀ r ∈ t, 0 ≤ r.count ∧ 0 ≤ r.dist :=
        fun r hr => h r (List.mem_cons_of_mem a hr)
      have htc : 0 ≤ (t.map Row.count).sum := by
        refine List.sum_nonneg (fun x hx => ?_)
        rcases List.mem_map.mp hx with ⟨r, hr, rfl⟩
        exact (ht r hr).1
      simp only [List.map_cons, List.sum_cons] at hw ⊢
      by_cases hca : 0 < a.count
      · linarith
      · have hc0 : a.count = 0 := le_antisymm (not_lt.mp hca) ha.1
        rw [hc0, zero_mul, zero_add] at hw
        have := ih ht hw
        linarith

/-- Claim C10: with nonnegative trip counts and distances, whenever the
cost-distribution builder takes the division branch (weighted band distance
strictly positive) the divisor `band_trips` is strictly positive, so the
division `band_distance / band_trips` never divides by zero; together with
the midpoint fallback on the other branch, every `band_mean_cost` returned is
a well-defined rational. -/
theorem claim10_division_safe (iU oU : CostUnits) (data : List Row) (edges : List ℚ)
    (hnn : ∀ r ∈ data, 0 ≤ r.count ∧ 0 ≤ r.dist)
    (i : ℕ) (l u : ℚ) (hp : (pairwise edges)[i]? = some (l, u)) :
    (¬ (((convData iU oU data).filter (fun r => inBand l u r.dist)).map
          (fun r => r.count * r.dist)).sum ≤ 0 →
        0 < (((convData iU oU data).filter (fun r => inBand l u r.dist)).map
          Row.count).sum) ∧
      (build_cost_distribution iU data edges oU).band_mean_cost[i]?
        = some (if (((convData iU oU data).filter
              (fun r => inBand l u r.dist)).map (fun r => r.count * r.dist)).sum ≤ 0
            then (l + u) / 2
            else (((convData iU oU data).filter
                  (fun r => inBand l u r.dist)).map (fun r => r.count * r.dist)).sum
              / (((convData iU oU data).filter
                  (fun r => inBand l u r.dist)).map Row.count).sum) := by
  constructor
  · intro hw
    refine sum_count_pos_of_weighted_pos _ ?_ (lt_of_not_le (fun hc => hw ?_))
    · intro r hr
      have hr' : r ∈ convData iU oU data := (List.mem_filter.mp hr).1
      rcases List.mem_map.mp hr' with ⟨r0, hr0, rfl⟩
      refine ⟨(hnn r0 hr0).1, ?_⟩
      exact mul_nonneg (hnn r0 hr0).2 (le_of_lt (conversion_factor_pos iU oU))
    · exact hc
  · simp only [build_cost_distribution, List.map_map, List.getElem?_map, hp]
    rfl

/-- Witness for claim C10: the band `(2, 5)` with one record at distance 3
and count 5 takes the division branch with a strictly positive divisor. -/
theorem claim10_division_safe_witness :
    (∀ r ∈ [({ cols := [], dist := 3, count := 5 } : Row)], 0 ≤ r.count ∧ 0 ≤ r.dist) ∧
      (pairwise [0, 2, 5])[1]? = some ((2 : ℚ), (5 : ℚ)) ∧
      ((¬ (((convData .miles .miles [{ cols := [], dist := 3, count := 5 }]).filter
            (fun r => inBand 2 5 r.dist)).map (fun r => r.count * r.dist)).sum ≤ 0 →
          0 < (((convData .miles .miles [{ cols := [], dist := 3, count := 5 }]).filter
            (fun r => inBand 2 5 r.dist)).map Row.count).sum) ∧
        (build_cost_distribution .miles [{ cols := [], dist := 3, count := 5 }]
            [0, 2, 5] .miles).band_mean_cost[1]?
          = some (if (((convData .miles .miles
                  [{ cols := [], dist := 3, count := 5 }]).filter
                (fun r => inBand 2 5 r.dist)).map (fun r => r.count * r.dist)).sum ≤ 0
              then ((2 : ℚ) + 5) / 2
              else (((convData .miles .miles
                      [{ cols := [], dist := 3, count := 5 }]).filter
                    (fun r => inBand 2 5 r.dist)).map (fun r => r.count * r.dist)).sum
                / (((convData .miles .miles
                      [{ cols := [], dist := 3, count := 5 }]).filter
                    (fun r => inBand 2 5 r.dist)).map Row.count).sum)) := by
  have h1 : ∀ r ∈ [({ cols := [], dist := 3, count := 5 } : Row)],
      0 ≤ r.count ∧ 0 ≤ r.dist := by
    intro r hr
    simp only [List.mem_cons, List.not_mem_nil, or_false] at hr
    subst hr
    norm_num
  have h2 : (pairwise [0, 2, 5])[1]? = some ((2 : ℚ), (5 : ℚ)) := by decide
  exact ⟨h1, h2,
    claim10_division_safe .miles .miles [{ cols := [], dist := 3, count := 5 }]
      [0, 2, 5] h1 1 2 5 h2⟩

/-! ### Segment-filter lemmas (claim C8) -/

theorem dictInsert_cons (e : String × List CVal) (d : List (String × List CVal))
    (k : String) (v : List CVal) (h : k ≠ e.1) :
    dictInsert (e :: d) k v = e :: dictInsert d k v := by
  have hek : (e.1 == k) = false := by
    simp [h.symm]
  unfold dictInsert
  simp only [List.any_cons, hek, Bool.false_or]
  by_cases hd : d.any (fun p => p.1 == k)
  · simp only [hd, if_true]
    simp only [List.map_cons, hek, Bool.false_eq_true, if_false]
  · simp only [hd, Bool.false_eq_true, if_false]
    simp [List.cons_append]

theorem build_df_filter_step_cons (pc : String) (e : String × List CVal)
    (acc : List (String × List CVal)) (p : String × CVal)
    (h : filterKey pc p ≠ some e.1) :
    build_df_filter_step pc (e :: acc) p = e :: build_df_filter_step pc acc p := by
  unfold build_df_filter_step
  unfold filterKey at h
  by_cases h1 : p.1 == "trip_origin"
  · simp only [h1, if_true] at h ⊢
    exact dictInsert_cons e acc p.1 (to_dict_lookup p.2) (fun hc => h (by rw [hc]))
  · simp only [h1, Bool.false_eq_true, if_false] at h ⊢
    by_cases h2 : p.1 == "uc"
    · simp only [h2, if_true] at h ⊢
      exact dictInsert_cons e acc pc (user_class_purposes p.2) (fun hc => h (by rw [hc]))
    · simp only [h2, Bool.false_eq_true, if_false] at h ⊢
      by_cases h3 : (p.1 == "soc" || p.1 == "ns") = true
      · simp only [h3, if_true] at h ⊢
        by_cases h4 : isNanVal p.2
        · simp [h4]
        · simp only [h4, Bool.false_eq_true, if_false] at h ⊢
          exact dictInsert_cons e acc p.1 [p.2] (fun hc => h (by rw [hc]))
      · simp only [h3, Bool.false_eq_true, if_false] at h ⊢
        exact dictInsert_cons e acc p.1 [p.2] (fun hc => h (by rw [hc]))

theorem foldl_df_filter_cons (pc : String) (e : String × List CVal) :
    ∀ (qs : List (String × CVal)) (acc : List (String × List CVal)),
      (∀ p ∈ qs, filterKey pc p ≠ some e.1) →
      List.foldl (build_df_filter_step pc) (e :: acc) qs
        = e :: List.foldl (build_df_filter_step pc) acc qs
  | [], _, _ => rfl
  | q :: qs, acc, h => by
      simp only [List.foldl_cons]
      rw [build_df_filter_step_cons pc e acc q (h q (by simp))]
      exact foldl_df_filter_cons pc e qs _ (fun p hp => h p (List.mem_cons_of_mem q hp))

theorem build_df_filter_step_nan (pc : String) (acc : List (String × List CVal))
    (name : String) (hname : name = "soc" ∨ name = "ns") :
    build_df_filter_step pc acc (name, CVal.vnan) = acc := by
  rcases hname with rfl | rfl <;> rfl

/-- Claim C8: a NaN-valued `soc` / `ns` segment parameter contributes no
filter at all — `_filter_nts_data` returns exactly the rows matching the
remaining conjunctive dimension filters — while a non-NaN `soc` / `ns` value
contributes an exact-match filter on that column. -/
theorem claim8_nan_skip (pc : String) (data : List Row) (name : String)
    (hname : name = "soc" ∨ name = "ns") (ps qs : List (String × CVal)) (v : ℚ)
    (hfresh : ∀ p ∈ qs, filterKey pc p ≠ some name) :
    filter_nts_data pc data (ps ++ (name, CVal.vnan) :: qs)
        = filter_nts_data pc data (ps ++ qs) ∧
      filter_nts_data pc data ((name, CVal.vnum v) :: qs)
        = (filter_nts_data pc data qs).filter
            (fun r => cvalEq (r.get name) (CVal.vnum v)) := by
  constructor
  · unfold filter_nts_data build_df_filter
    rw [List.foldl_append, List.foldl_append, List.foldl_cons,
      build_df_filter_step_nan pc _ name hname]
  · unfold filter_nts_data build_df_filter
    rw [List.foldl_cons]
    have hstep : build_df_filter_step pc [] (name, CVal.vnum v)
        = [(name, [CVal.vnum v])] := by
      rcases hname with rfl | rfl <;> rfl
    rw [hstep, foldl_df_filter_cons pc (name, [CVal.vnum v]) qs [] hfresh]
    unfold filter_df
    rw [List.filter_filter]
    refine List.filter_congr (fun r _ => ?_)
    simp only [matchesFilter, List.all_cons]
    simp [Bool.and_comm]

/-- Witness for claim C8 at the spec scenario: two rows with differing
non-NaN `soc` values; `soc = NaN` leaves the purpose filter untouched, while
`soc = 1` additionally exact-matches the `soc` column. -/
theorem claim8_nan_skip_witness :
    (∀ p ∈ [("p", CVal.vnum 1)], filterKey "p" p ≠ some "soc") ∧
      (filter_nts_data "p"
          [{ cols := [("p", CVal.vnum 1), ("soc", CVal.vnum 1)], dist := 1, count := 1 },
           { cols := [("p", CVal.vnum 1), ("soc", CVal.vnum 2)], dist := 2, count := 1 }]
          ([] ++ ("soc", CVal.vnan) :: [("p", CVal.vnum 1)])
        = filter_nts_data "p"
          [{ cols := [("p", CVal.vnum 1), ("soc", CVal.vnum 1)], dist := 1, count := 1 },
           { cols := [("p", CVal.vnum 1), ("soc", CVal.vnum 2)], dist := 2, count := 1 }]
          ([] ++ [("p", CVal.vnum 1)]) ∧
      filter_nts_data "p"
          [{ cols := [("p", CVal.vnum 1), ("soc", CVal.vnum 1)], dist := 1, count := 1 },
           { cols := [("p", CVal.vnum 1), ("soc", CVal.vnum 2)], dist := 2, count := 1 }]
          (("soc", CVal.vnum 1) :: [("p", CVal.vnum 1)])
        = (filter_nts_data "p"
            [{ cols := [("p", CVal.vnum 1), ("soc", CVal.vnum 1)], dist := 1, count := 1 },
             { cols := [("p", CVal.vnum 1), ("soc", CVal.vnum 2)], dist := 2, count := 1 }]
            [("p", CVal.vnum 1)]).filter
              (fun r => cvalEq (r.get "soc") (CVal.vnum 1))) := by
  have hfresh : ∀ p ∈ [("p", CVal.vnum 1)], filterKey "p" p ≠ some "soc" := by decide
  exact ⟨hfresh,
    claim8_nan_skip "p"
      [{ cols := [("p", CVal.vnum 1), ("soc", CVal.vnum 1)], dist := 1, count := 1 },
       { cols := [("p", CVal.vnum 1), ("soc", CVal.vnum 2)], dist := 2, count := 1 }]
      "soc" (Or.inl rfl) [] [("p", CVal.vnum 1)] 1 hfresh⟩

/-! ### Geo-filter dispatch (claim C9) -/

/-- Claim C9: every trip-filter mode that is not one of the supported
origin/destination modes makes the geo filter fail with an
invalid-configuration error whose message names the offending mode (no rows
are returned), while the three supported modes constrain respectively both
origin and destination, origin only, or destination only to the target area
code set (after the `hb_to` transposition). -/
theorem claim9_geo_filter (toc : String) (data : List Row) (geo : GeoArea)
    (tft : TripFilter) :
    (tft.is_od_type = false →
        apply_geo_filter toc data geo tft
          = .error ("Dont know how to apply to filter " ++ tft.value)) ∧
      apply_geo_filter toc data geo .trip_od
        = .ok ((transpose_hb_to toc data).filter
            (fun r => inGors geo (r.get orig_gor_col)
              && inGors geo (r.get dest_gor_col))) ∧
      apply_geo_filter toc data geo .trip_o
        = .ok ((transpose_hb_to toc data).filter
            (fun r => inGors geo (r.get orig_gor_col))) ∧
      apply_geo_filter toc data geo .trip_d
        = .ok ((transpose_hb_to toc data).filter
            (fun r => inGors geo (r.get dest_gor_col))) := by
  refine ⟨?_, ?_, rfl, rfl⟩
  · intro h
    cases tft <;> simp_all [TripFilter.is_od_type, apply_geo_filter]
  · have hseq : apply_geo_filter toc data geo .trip_od
        = .ok (((transpose_hb_to toc data).filter
              (fun r => inGors geo (r.get orig_gor_col))).filter
            (fun r => inGors geo (r.get dest_gor_col))) := rfl
    rw [hseq, List.filter_filter]
    exact congrArg Except.ok (List.filter_congr (fun r _ => Bool.and_comm _ _))

/-- Witness for claim C9: the modelled non-OD `household` mode is rejected
with an error naming it, and `trip_O` keeps a transposed `hb_to` row whose
(post-transposition) origin is in the target area. -/
theorem claim9_geo_filter_witness :
    TripFilter.household.is_od_type = false ∧
      apply_geo_filter "trip_origin"
          [{ cols := [("trip_origin", CVal.vstr "hb_to"),
                      ("TripOrigGOR_B02ID", CVal.vnum 2),
                      ("TripDestGOR_B02ID", CVal.vnum 1)], dist := 1, count := 1 }]
          { gors := [CVal.vnum 1] } .household
        = .error ("Dont know how to apply to filter " ++ TripFilter.household.value) ∧
      apply_geo_filter "trip_origin"
          [{ cols := [("trip_origin", CVal.vstr "hb_to"),
                      ("TripOrigGOR_B02ID", CVal.vnum 2),
                      ("TripDestGOR_B02ID", CVal.vnum 1)], dist := 1, count := 1 }]
          { gors := [CVal.vnum 1] } .trip_o
        = .ok [{ cols := [("trip_origin", CVal.vstr "hb_to"),
                          ("TripOrigGOR_B02ID", CVal.vnum 1),
                          ("TripDestGOR_B02ID", CVal.vnum 2)], dist := 1, count := 1 }] := by
  refine ⟨rfl, ?_, ?_⟩
  · exact (claim9_geo_filter "trip_origin"
      [{ cols := [("trip_origin", CVal.vstr "hb_to"),
                  ("TripOrigGOR_B02ID", CVal.vnum 2),
                  ("TripDestGOR_B02ID", CVal.vnum 1)], dist := 1, count := 1 }]
      { gors := [CVal.vnum 1] } .household).1 rfl
  · with_unfolding_all rfl

/-! ### Lemmas about the segment loop of `build_tld` (claims C1, C2, C6, C7) -/

theorem build_tld_step_fail (iU : CostUnits) (pc : String) (data : List Row)
    (bands : List (ℚ × ℚ)) (oU : CostUnits) (thr : ℕ) (st : TldState)
    (sp : List (String × CVal)) (h : (filter_nts_data pc data sp).length < thr) :
    build_tld_step iU pc data bands oU thr st sp
      = { st with warnings := st.warnings ++
          [warn_msg sp thr (filter_nts_data pc data sp).length] } := by
  unfold build_tld_step
  rw [if_pos h]

theorem build_tld_step_pass (iU : CostUnits) (pc : String) (data : List Row)
    (bands : List (ℚ × ℚ)) (oU : CostUnits) (thr : ℕ) (st : TldState)
    (sp : List (String × CVal)) (h : ¬ (filter_nts_data pc data sp).length < thr) :
    build_tld_step iU pc data bands oU thr st sp
      = { name_to_distribution :=
            dictUpdate st.name_to_distribution (generate_file_name sp)
              (build_cost_distribution iU (filter_nts_data pc data sp)
                ((bands.map Prod.fst).headI :: bands.map Prod.snd) oU)
          sample_size_log := st.sample_size_log ++
            [{ params := sp, records := (filter_nts_data pc data sp).length,
               status := "Passed" }]
          full_export := st.full_export ++
            [(build_cost_distribution iU (filter_nts_data pc data sp)
                ((bands.map Prod.fst).headI :: bands.map Prod.snd) oU).to_df sp]
          warnings := st.warnings } := by
  unfold build_tld_step
  rw [if_neg h]

theorem build_tld_step_export (iU : CostUnits) (pc : String) (data : List Row)
    (bands : List (ℚ × ℚ)) (oU : CostUnits) (thr : ℕ) (st : TldState)
    (sp : List (String × CVal)) :
    ∃ e0, (build_tld_step iU pc data bands oU thr st sp).full_export
      = st.full_export ++ e0 := by
  by_cases h : (filter_nts_data pc data sp).length < thr
  · refine ⟨[], ?_⟩
    rw [build_tld_step_fail iU pc data bands oU thr st sp h]
    simp
  · refine ⟨[(build_cost_distribution iU (filter_nts_data pc data sp)
        ((bands.map Prod.fst).headI :: bands.map Prod.snd) oU).to_df sp], ?_⟩
    rw [build_tld_step_pass iU pc data bands oU thr st sp h]

theorem foldl_tld_export_append (iU : CostUnits) (pc : String) (data : List Row)
    (bands : List (ℚ × ℚ)) (oU : CostUnits) (thr : ℕ) :
    ∀ (segs : List (List (String × CVal))) (st : TldState),
      ∃ e, (List.foldl (build_tld_step iU pc data bands oU thr) st segs).full_export
        = st.full_export ++ e
  | [], st => ⟨[], by simp⟩
  | sp :: segs, st => by
      rw [List.foldl_cons]
      rcases build_tld_step_export iU pc data bands oU thr st sp with ⟨e0, he0⟩
      rcases foldl_tld_export_append iU pc data bands oU thr segs
        (build_tld_step iU pc data bands oU thr st sp) with ⟨e, he⟩
      exact ⟨e0 ++ e, by rw [he, he0, List.append_assoc]⟩

theorem foldl_tld_export_all_fail (iU : CostUnits) (pc : String) (data : List Row)
    (bands : List (ℚ × ℚ)) (oU : CostUnits) (thr : ℕ) :
    ∀ (segs : List (List (String × CVal))) (st : TldState),
      (∀ sp ∈ segs, (filter_nts_data pc data sp).length < thr) →
      (List.foldl (build_tld_step iU pc data bands oU thr) st segs).full_export
        = st.full_export
  | [], _, _ => rfl
  | sp :: segs, st, h => by
      rw [List.foldl_cons, build_tld_step_fail iU pc data bands oU thr st sp (h sp (by simp)),
        foldl_tld_export_all_fail iU pc data bands oU thr segs _
          (fun q hq => h q (List.mem_cons_of_mem sp hq))]

theorem foldl_tld_export_ne_nil (iU : CostUnits) (pc : String) (data : List Row)
    (bands : List (ℚ × ℚ)) (oU : CostUnits) (thr : ℕ) :
    ∀ (segs : List (List (String × CVal))) (st : TldState)
      (sp : List (String × CVal)), sp ∈ segs →
      thr ≤ (filter_nts_data pc data sp).length →
      (List.foldl (build_tld_step iU pc data bands oU thr) st segs).full_export ≠ []
  | [], _, _, hmem, _ => by simp at hmem
  | q :: segs, st, sp, hmem, hthr => by
      rw [List.foldl_cons]
      rcases List.mem_cons.mp hmem with rfl | hmem'
      · rcases foldl_tld_export_append iU pc data bands oU thr segs
          (build_tld_step iU pc data bands oU thr st sp) with ⟨e, he⟩
        rw [he, build_tld_step_pass iU pc data bands oU thr st sp (not_lt.mpr hthr)]
        simp
      · exact foldl_tld_export_ne_nil iU pc data bands oU thr segs _ sp hmem' hthr

/-- Claim C6: when no segment of the enumeration reaches the sample
threshold, `build_tld` fails with the `pd.concat` error on the empty export
list rather than returning an empty table; when at least one segment passes,
it returns the consolidated result normally. -/
theorem claim6_empty_export (iU : CostUnits) (pc : String) (data : List Row)
    (bands : List (ℚ × ℚ)) (segmentation : List (List (String × CVal)))
    (oU : CostUnits) (thr : ℕ) :
    ((∀ sp ∈ segmentation, (filter_nts_data pc data sp).length < thr) →
        build_tld iU pc data bands segmentation oU thr
          = .error "No objects to concatenate") ∧
      ((∃ sp ∈ segmentation, thr ≤ (filter_nts_data pc data sp).length) →
        ∃ res, build_tld iU pc data bands segmentation oU thr = .ok res) := by
  constructor
  · intro h
    have he : (build_tld_state iU pc data bands segmentation oU thr).full_export
        = [] := by
      unfold build_tld_state
      rw [foldl_tld_export_all_fail iU pc data bands oU thr segmentation _ h]
      rfl
    simp only [build_tld, he, concat_tables]
  · rintro ⟨sp, hsp, hthr⟩
    have hne : (build_tld_state iU pc data bands segmentation oU thr).full_export
        ≠ [] := by
      unfold build_tld_state
      exact foldl_tld_export_ne_nil iU pc data bands oU thr segmentation _ sp hsp hthr
    rcases hfe : (build_tld_state iU pc data bands segmentation oU thr).full_export
      with _ | ⟨a, t⟩
    · exact absurd hfe hne
    · refine ⟨⟨(build_tld_state iU pc data bands segmentation oU thr).name_to_distribution,
        (build_tld_state iU pc data bands segmentation oU thr).sample_size_log,
        (a :: t).flatten,
        (build_tld_state iU pc data bands segmentation oU thr).warnings⟩, ?_⟩
      simp only [build_tld, hfe, concat_tables]

/-- Witness for claim C6: a one-segment enumeration whose filter returns no
rows fails with the concatenation error at threshold 1; with one matching row
the same run returns a result. -/
theorem claim6_empty_export_witness :
    (∀ sp ∈ [[(("m" : String), CVal.vnum 99)]],
        (filter_nts_data "p"
          [{ cols := [("m", CVal.vnum 1)], dist := 3, count := 5 }] sp).length < 1) ∧
      build_tld .miles "p" [{ cols := [("m", CVal.vnum 1)], dist := 3, count := 5 }]
          [(0, 2), (2, 5)] [[(("m" : String), CVal.vnum 99)]] .miles 1
        = .error "No objects to concatenate" ∧
      (∃ sp ∈ [([] : List (String × CVal))],
        1 ≤ (filter_nts_data "p"
          [{ cols := [("m", CVal.vnum 1)], dist := 3, count := 5 }] sp).length) ∧
      (∃ res, build_tld .miles "p"
          [{ cols := [("m", CVal.vnum 1)], dist := 3, count := 5 }]
          [(0, 2), (2, 5)] [([] : List (String × CVal))] .miles 1 = .ok res) := by
  have hfail : ∀ sp ∈ [[(("m" : String), CVal.vnum 99)]],
      (filter_nts_data "p"
        [{ cols := [("m", CVal.vnum 1)], dist := 3, count := 5 }] sp).length < 1 := by
    intro sp hsp
    simp only [List.mem_cons, List.not_mem_nil, or_false] at hsp
    subst hsp
    with_unfolding_all decide
  have hpass : ∃ sp ∈ [([] : List (String × CVal))],
      1 ≤ (filter_nts_data "p"
        [{ cols := [("m", CVal.vnum 1)], dist := 3, count := 5 }] sp).length := by
    refine ⟨[], by simp, ?_⟩
    with_unfolding_all decide
  exact ⟨hfail,
    (claim6_empty_export .miles "p"
      [{ cols := [("m", CVal.vnum 1)], dist := 3, count := 5 }]
      [(0, 2), (2, 5)] [[(("m" : String), CVal.vnum 99)]] .miles 1).1 hfail,
    hpass,
    (claim6_empty_export .miles "p"
      [{ cols := [("m", CVal.vnum 1)], dist := 3, count := 5 }]
      [(0, 2), (2, 5)] [([] : List (String × CVal))] .miles 1).2 hpass⟩

theorem find?_map_update (k : String) (v : CostDistribution) :
    ∀ (d : List (String × CostDistribution)),
      d.any (fun p => p.1 == k) = true →
      (d.map (fun p => if p.1 == k then (k, v) else p)).find? (fun p => p.1 == k)
        = some (k, v)
  | [], h => by simp at h
  | p :: t, h => by
      by_cases hp : (p.1 == k) = true
      · simp only [List.map_cons, hp, if_true]
        simp [List.find?_cons]
      · have ht : t.any (fun p => p.1 == k) = true := by
          simp only [List.any_cons, hp] at h
          simpa using h
        have hp' : (p.1 == k) = false := Bool.eq_false_iff.mpr hp
        simp only [List.map_cons, hp, Bool.false_eq_true, if_false, List.find?_cons, hp']
        exact find?_map_update k v t ht

theorem dictLookup_dictUpdate (d : List (String × CostDistribution)) (k : String)
    (v : CostDistribution) : dictLookup (dictUpdate d k v) k = some v := by
  unfold dictLookup dictUpdate
  by_cases h : d.any (fun p => p.1 == k)
  · simp only [h, if_true]
    rw [find?_map_update k v d h]
    rfl
  · simp only [h, Bool.false_eq_true, if_false]
    rw [List.find?_append]
    have hnone : d.find? (fun p => p.1 == k) = none := by
      rw [List.find?_eq_none]
      intro x hx
      exact List.any_eq_false.mp (Bool.eq_false_iff.mpr h) x hx
    rw [hnone]
    simp [List.find?_cons]

/-- Claim C7: a segment whose filtered row count equals the sample threshold
exactly is treated as Passed — its cost distribution is built and registered
under its canonical name and a `Passed` log line is appended — while a
segment with `threshold - 1` rows only appends a warning diagnostic (banding
skipped, no registration, no log line) and the loop continues with the
remaining segments on that updated state rather than aborting. -/
theorem claim7_threshold_boundary (iU : CostUnits) (pc : String) (data : List Row)
    (bands : List (ℚ × ℚ)) (oU : CostUnits) (thr : ℕ) (st : TldState)
    (sp : List (String × CVal)) (rest : List (List (String × CVal))) :
    ((filter_nts_data pc data sp).length = thr →
        dictLookup (build_tld_step iU pc data bands oU thr st sp).name_to_distribution
            (generate_file_name sp)
          = some (build_cost_distribution iU (filter_nts_data pc data sp)
              ((bands.map Prod.fst).headI :: bands.map Prod.snd) oU) ∧
        (build_tld_step iU pc data bands oU thr st sp).sample_size_log
          = st.sample_size_log
            ++ [{ params := sp, records := thr, status := "Passed" }]) ∧
      ((filter_nts_data pc data sp).length + 1 = thr →
        build_tld_step iU pc data bands oU thr st sp
            = { st with warnings := st.warnings
                ++ [warn_msg sp thr (filter_nts_data pc data sp).length] } ∧
          List.foldl (build_tld_step iU pc data bands oU thr) st (sp :: rest)
            = List.foldl (build_tld_step iU pc data bands oU thr)
                { st with warnings := st.warnings
                  ++ [warn_msg sp thr (filter_nts_data pc data sp).length] } rest) := by
  constructor
  · intro h
    have hnl : ¬ (filter_nts_data pc data sp).length < thr := by omega
    rw [build_tld_step_pass iU pc data bands oU thr st sp hnl]
    exact ⟨dictLookup_dictUpdate _ _ _, by rw [h]⟩
  · intro h
    have hl : (filter_nts_data pc data sp).length < thr := by omega
    refine ⟨build_tld_step_fail iU pc data bands oU thr st sp hl, ?_⟩
    rw [List.foldl_cons, build_tld_step_fail iU pc data bands oU thr st sp hl]

/-- Witness for claim C7: with threshold 1, a segment matching exactly one
row passes and is registered; a segment matching zero rows fails with only a
warning, and the loop equation continues over the remaining segments. -/
theorem claim7_threshold_boundary_witness :
    (filter_nts_data "p" [example_row] [("m", CVal.vnum 1)]).length = 1 ∧
      (filter_nts_data "p" [example_row] [("m", CVal.vnum 99)]).length + 1 = 1 ∧
      (dictLookup (build_tld_step .miles "p" [example_row] [(0, 2), (2, 5)] .miles 1
            init_tld_state [("m", CVal.vnum 1)]).name_to_distribution
          (generate_file_name [("m", CVal.vnum 1)])
        = some (build_cost_distribution .miles
            (filter_nts_data "p" [example_row] [("m", CVal.vnum 1)])
            (([((0 : ℚ), (2 : ℚ)), (2, 5)].map Prod.fst).headI
              :: [((0 : ℚ), (2 : ℚ)), (2, 5)].map Prod.snd) .miles) ∧
        (build_tld_step .miles "p" [example_row] [(0, 2), (2, 5)] .miles 1
            init_tld_state [("m", CVal.vnum 1)]).sample_size_log
          = init_tld_state.sample_size_log
            ++ [{ params := [("m", CVal.vnum 1)], records := 1, status := "Passed" }]) ∧
      (build_tld_step .miles "p" [example_row] [(0, 2), (2, 5)] .miles 1
          init_tld_state [("m", CVal.vnum 99)]
        = { init_tld_state with warnings := init_tld_state.warnings
            ++ [warn_msg [("m", CVal.vnum 99)] 1
                (filter_nts_data "p" [example_row] [("m", CVal.vnum 99)]).length] } ∧
        List.foldl (build_tld_step .miles "p" [example_row] [(0, 2), (2, 5)] .miles 1)
            init_tld_state ([("m", CVal.vnum 99)] :: [[("m", CVal.vnum 1)]])
          = List.foldl (build_tld_step .miles "p" [example_row] [(0, 2), (2, 5)] .miles 1)
              { init_tld_state with warnings := init_tld_state.warnings
                ++ [warn_msg [("m", CVal.vnum 99)] 1
                    (filter_nts_data "p" [example_row] [("m", CVal.vnum 99)]).length] }
              [[("m", CVal.vnum 1)]]) := by
  have h1 : (filter_nts_data "p" [example_row] [("m", CVal.vnum 1)]).length = 1 := by
    with_unfolding_all rfl
  have h2 : (filter_nts_data "p" [example_row] [("m", CVal.vnum 99)]).length + 1 = 1 := by
    with_unfolding_all rfl
  exact ⟨h1, h2,
    (claim7_threshold_boundary .miles "p" [example_row] [(0, 2), (2, 5)] .miles 1
      init_tld_state [("m", CVal.vnum 1)] [[("m", CVal.vnum 1)]]).1 h1,
    (claim7_threshold_boundary .miles "p" [example_row] [(0, 2), (2, 5)] .miles 1
      init_tld_state [("m", CVal.vnum 99)] [[("m", CVal.vnum 1)]]).2 h2⟩

/-- Claim C1 (code bug, evaluated at the failing input): running `build_tld`
over two segments — one matching zero rows (under-sampled at threshold 1) and
one matching the single row — yields a sample-size log with ONLY the `Passed`
line: the `Failed` log line the source constructs for the under-sampled
segment is dropped because the loop `continue`s before the append, even
though the same segment does emit its warning diagnostic.  The claim (and the
code documentation, which says failures are captured in the log) requires one
log row per attempted segment. -/
theorem claim1_failed_log_line_missing :
    (build_tld .miles "p" [example_row] [(0, 2), (2, 5)]
          [[("m", CVal.vnum 99)], [("m", CVal.vnum 1)]] .miles 1).toOption.map
        BuildTldResult.sample_size_log
      = some [{ params := [("m", CVal.vnum 1)], records := 1, status := "Passed" }] ∧
      (build_tld .miles "p" [example_row] [(0, 2), (2, 5)]
            [[("m", CVal.vnum 99)], [("m", CVal.vnum 1)]] .miles 1).toOption.map
          (fun res => res.warnings.length)
        = some 1 := by
  constructor
  · with_unfolding_all rfl
  · with_unfolding_all rfl

/-- Claim C2 counterexample: on a bands table whose `lower` column is not
sorted — `lower = [5, 0]`, `upper = [10, 20]` — the source passes the edge
array `[5, 10, 20]` (FIRST lower value prepended, `min_bounds[0]`), not the
`[0, 10, 20]` required by the claim (MINIMUM of the lower column prepended,
as `spec_band_edges` words it). -/
theorem claim2_counterexample :
    spec_band_edges [(5, 10), (0, 20)] = [0, 10, 20] ∧
      (build_tld .miles "p" [{ cols := [], dist := 6, count := 5 }]
            [(5, 10), (0, 20)] [[]] .miles 1).toOption.map
          (fun res => res.name_to_distribution.map (fun p => p.2.edges))
        = some [[5, 10, 20]] ∧
      ([(5 : ℚ), 10, 20] : List ℚ) ≠ [(0 : ℚ), 10, 20] := by
  refine ⟨?_, ?_, ?_⟩
  · with_unfolding_all rfl
  · with_unfolding_all rfl
  · decide

theorem mem_dictUpdate {d : List (String × CostDistribution)} {k : String}
    {v : CostDistribution} {p : String × CostDistribution}
    (h : p ∈ dictUpdate d k v) : p ∈ d ∨ p = (k, v) := by
  unfold dictUpdate at h
  by_cases ha : d.any (fun q => q.1 == k)
  · simp only [ha, if_true] at h
    rcases List.mem_map.mp h with ⟨q, hq, hqe⟩
    by_cases hqk : (q.1 == k) = true
    · right
      rw [← hqe]
      simp [hqk]
    · left
      rw [← hqe]
      simpa [hqk] using hq
  · simp only [ha, Bool.false_eq_true, if_false] at h
    rcases List.mem_append.mp h with h1 | h1
    · exact Or.inl h1
    · right
      simpa using h1

theorem build_tld_state_edges (iU : CostUnits) (pc : String) (data : List Row)
    (bands : List (ℚ × ℚ)) (oU : CostUnits) (thr : ℕ) :
    ∀ (segs : List (List (String × CVal))) (st : TldState),
      (∀ p ∈ st.name_to_distribution,
        p.2.edges = (bands.map Prod.fst).headI :: bands.map Prod.snd) →
      ∀ p ∈ (List.foldl (build_tld_step iU pc data bands oU thr) st segs).name_to_distribution,
        p.2.edges = (bands.map Prod.fst).headI :: bands.map Prod.snd
  | [], _, hinv => hinv
  | sp :: segs, st, hinv => by
      rw [List.foldl_cons]
      refine build_tld_state_edges iU pc data bands oU thr segs _ ?_
      intro p hp
      by_cases h : (filter_nts_data pc data sp).length < thr
      · rw [build_tld_step_fail iU pc data bands oU thr st sp h] at hp
        exact hinv p hp
      · rw [build_tld_step_pass iU pc data bands oU thr st sp h] at hp
        rcases mem_dictUpdate hp with h1 | h1
        · exact hinv p h1
        · rw [h1]
          rfl

/-- Claim C2 (amended): every cost distribution registered by the segment
loop of `build_tld` carries the edge array equal to the FIRST value of the
bands table `lower` column (`min_bounds[0]`) prepended to the `upper` column
values, in that order.  (On an empty bands table the source raises
`IndexError` instead, hence the nonemptiness hypothesis.) -/
theorem claim2_edges_first_lower (iU : CostUnits) (pc : String) (data : List Row)
    (bands : List (ℚ × ℚ)) (segmentation : List (List (String × CVal)))
    (oU : CostUnits) (thr : ℕ) (_hb : bands ≠ [])
    (p : String × CostDistribution)
    (hmem : p ∈ (build_tld_state iU pc data bands segmentation oU thr).name_to_distribution) :
    p.2.edges = (bands.map Prod.fst).headI :: bands.map Prod.snd := by
  unfold build_tld_state at hmem
  refine build_tld_state_edges iU pc data bands oU thr segmentation init_tld_state
    (fun q hq => ?_) p hmem
  simp [init_tld_state] at hq

/-- Witness for claim C2 (amended) at the unsorted bands table
`lower = [5, 0]`, `upper = [10, 20]`: the registered distribution carries the
edge array `[5, 10, 20]`. -/
theorem claim2_edges_first_lower_witness :
    ([((5 : ℚ), (10 : ℚ)), (0, 20)] : List (ℚ × ℚ)) ≠ [] ∧
      ("_cost_distribution",
          build_cost_distribution .miles [{ cols := [], dist := 6, count := 5 }]
            [5, 10, 20] .miles)
        ∈ (build_tld_state .miles "p" [{ cols := [], dist := 6, count := 5 }]
            [(5, 10), (0, 20)] [[]] .miles 1).name_to_distribution ∧
      (build_cost_distribution .miles [{ cols := [], dist := 6, count := 5 }]
          [5, 10, 20] .miles).edges
        = (([((5 : ℚ), (10 : ℚ)), (0, 20)] : List (ℚ × ℚ)).map Prod.fst).headI
          :: ([((5 : ℚ), (10 : ℚ)), (0, 20)] : List (ℚ × ℚ)).map Prod.snd := by
  have h1 : ([((5 : ℚ), (10 : ℚ)), (0, 20)] : List (ℚ × ℚ)) ≠ [] := by simp
  have h2 : ("_cost_distribution",
      build_cost_distribution .miles [{ cols := [], dist := 6, count := 5 }]
        [5, 10, 20] .miles)
      ∈ (build_tld_state .miles "p" [{ cols := [], dist := 6, count := 5 }]
          [(5, 10), (0, 20)] [[]] .miles 1).name_to_distribution := by
    have hd : (build_tld_state .miles "p" [{ cols := [], dist := 6, count := 5 }]
        [(5, 10), (0, 20)] [[]] .miles 1).name_to_distribution
        = [("_cost_distribution",
            build_cost_distribution .miles [{ cols := [], dist := 6, count := 5 }]
              [5, 10, 20] .miles)] := by
      with_unfolding_all rfl
    rw [hd]
    exact List.mem_singleton.mpr rfl
  exact ⟨h1, h2,
    claim2_edges_first_lower .miles "p" [{ cols := [], dist := 6, count := 5 }]
      [(5, 10), (0, 20)] [[]] .miles 1 h1 _ h2⟩

end NormitsTLD
